import Mathlib

/-
  Verification of the privacy-architecture email-storage synchronization
  engine against its specification.

  The development is a shallow embedding of the JavaScript sources
  (src/email-storage/** and the webhook server, JMAP client, and JMAP
  type modules) and of the SQL functions shipped in the migrations.
  Pure record constructions become Lean structures; database tables
  become lists of rows with explicit natural-key semantics; fallible
  operations return Except/Option; library primitives that the code
  calls (MD5, HMAC-SHA256, the aes192 cipher pair) are passed in as
  function parameters together with the contracts the libraries
  guarantee.
-/

namespace EmailStorage

/-! ## JMAP wire types (src types/fastmail.js) -/

/-- Semantics of reading a keyword flag from a JMAP keywords object:
`keywords[k] || false` — a missing key and an explicit `false` both
yield `false`. -/
def lookupFlag (kw : List (String × Bool)) (k : String) : Bool :=
  match kw.lookup k with
  | some b => b
  | none => false

/-- The wire shape of a JMAP Email record as consumed by the
`FastmailEmail` constructor (types/fastmail.js). Only the fields the
claims touch are carried; address lists are simplified to the email
strings the accessors extract. -/
structure FastmailEmailData where
  id : String
  threadId : String
  subject : String
  fromAddrs : List String
  keywords : List (String × Bool)
  textBody : String
  htmlBody : String
  size : Nat
deriving DecidableEq, Repr

/-- The `FastmailEmail` object after construction: the constructor
derives `isRead`, `isFlagged`, `isDeleted` from the keyword flags
`$seen`, `$flagged`, `$deleted`. -/
structure FastmailEmail where
  id : String
  threadId : String
  subject : String
  fromAddrs : List String
  keywords : List (String × Bool)
  textBody : String
  htmlBody : String
  size : Nat
  isRead : Bool
  isFlagged : Bool
  isDeleted : Bool
deriving DecidableEq, Repr

/-- The `FastmailEmail` constructor (types/fastmail.js lines 66-91). -/
def FastmailEmail.ofData (d : FastmailEmailData) : FastmailEmail :=
  { id := d.id
    threadId := d.threadId
    subject := d.subject
    fromAddrs := d.fromAddrs
    keywords := d.keywords
    textBody := d.textBody
    htmlBody := d.htmlBody
    size := d.size
    isRead := lookupFlag d.keywords "$seen"
    isFlagged := lookupFlag d.keywords "$flagged"
    isDeleted := lookupFlag d.keywords "$deleted" }

/-- `getFromAddress`: first sender address or null. -/
def FastmailEmail.getFromAddress (e : FastmailEmail) : Option String :=
  e.fromAddrs.head?

/-! ## Stored email objects (src/email-storage/src/types/email.js) -/

/-- A `StoredEmail` as built by `StoredEmail.fromFastmailEmail` /
`toSupabaseRow`, restricted to the columns the claims touch. -/
structure StoredEmail where
  fastmailId : String
  mailboxId : Option String
  subject : String
  fromAddress : Option String
  bodyText : String
  bodyHtml : String
  flags : List (String × Bool)
  isRead : Bool
  isFlagged : Bool
  isDeleted : Bool
deriving DecidableEq, Repr

/-- `StoredEmail.fromFastmailEmail(fastmailEmail, mailboxId)`. The
sync path calls it with a single argument, so `mailboxId` is `none`
there. -/
def StoredEmail.fromFastmailEmail (e : FastmailEmail) (mailboxId : Option String) :
    StoredEmail :=
  { fastmailId := e.id
    mailboxId := mailboxId
    subject := e.subject
    fromAddress := e.getFromAddress
    bodyText := e.textBody
    bodyHtml := e.htmlBody
    flags := e.keywords
    isRead := e.isRead
    isFlagged := e.isFlagged
    isDeleted := e.isDeleted }

/-! ## Database rows -/

/-- A row of the `emails` table. `localId` models the UUID primary key
as the insertion counter; `fastmailId` is the unique natural key. -/
structure EmailRow where
  localId : Nat
  fastmailId : String
  mailboxId : Option String
  subject : String
  fromAddress : Option String
  bodyText : String
  bodyHtml : String
  isRead : Bool
  isFlagged : Bool
  isDeleted : Bool
  updatedAt : Nat
deriving DecidableEq, Repr

/-- A row of the `email_search` table, keyed by the referenced email's
primary key (`ON CONFLICT (email_id)`). -/
structure SearchRow where
  emailId : Nat
  searchVector : String
  contentHash : String
deriving DecidableEq, Repr

/-- The `emails` table together with the local-id allocator. -/
structure EmailsTable where
  rows : List EmailRow
  nextId : Nat
deriving DecidableEq, Repr

/-- The search text assembled by `updateSearchIndex`
(supabase-client.js lines 434-459):
`[email.subject || '', email.fromAddress || '', email.textBody || '',
email.bodyHtml || ''].join(' ')`. `StoredEmail` has a `bodyText`
property but no `textBody` property, so `email.textBody` is undefined
and contributes the empty string. -/
def searchContentOf (e : StoredEmail) : String :=
  e.subject ++ " " ++ e.fromAddress.getD "" ++ " " ++ "" ++ " " ++ e.bodyHtml

/-- Upsert into `email_search` keyed on `email_id`, as performed by
`updateSearchIndex`. `hash` stands for the MD5 digest used for
`content_hash`. -/
def upsertSearchRow (hash : String → String) (search : List SearchRow)
    (emailId : Nat) (e : StoredEmail) : List SearchRow :=
  let content := searchContentOf e
  if search.any (fun s => s.emailId = emailId) then
    search.map (fun s =>
      if s.emailId = emailId then
        { s with searchVector := content, contentHash := hash content }
      else s)
  else
    search ++ [{ emailId := emailId, searchVector := content, contentHash := hash content }]

/-- The row written on a fresh insert (DDL defaults fill
`updated_at = NOW()`). -/
def mkEmailRow (id : Nat) (now : Nat) (e : StoredEmail) : EmailRow :=
  { localId := id
    fastmailId := e.fastmailId
    mailboxId := e.mailboxId
    subject := e.subject
    fromAddress := e.fromAddress
    bodyText := e.bodyText
    bodyHtml := e.bodyHtml
    isRead := e.isRead
    isFlagged := e.isFlagged
    isDeleted := e.isDeleted
    updatedAt := now }

/-- Applying `.update(row).eq('fastmail_id', ...)` to one row: every
column of `toSupabaseRow` is overwritten, the primary key survives, and
the `update_updated_at_column` trigger stamps `updated_at`. -/
def applyEmailUpdate (r : EmailRow) (now : Nat) (e : StoredEmail) : EmailRow :=
  { localId := r.localId
    fastmailId := e.fastmailId
    mailboxId := e.mailboxId
    subject := e.subject
    fromAddress := e.fromAddress
    bodyText := e.bodyText
    bodyHtml := e.bodyHtml
    isRead := e.isRead
    isFlagged := e.isFlagged
    isDeleted := e.isDeleted
    updatedAt := now }

/-- `.insert(row)` on `emails`: unique violation 23505 when the
natural key exists, otherwise append and return the canonical row. -/
def insertEmailRow (tbl : EmailsTable) (now : Nat) (e : StoredEmail) :
    Except Unit (EmailsTable × EmailRow) :=
  if tbl.rows.any (fun r => r.fastmailId = e.fastmailId) then
    .error ()
  else
    let r := mkEmailRow tbl.nextId now e
    .ok ({ rows := tbl.rows ++ [r], nextId := tbl.nextId + 1 }, r)

/-- `.update(row).eq('fastmail_id', key).select().single()`: update
every matching row; `single()` surfaces the (unique-keyed) updated
row, erroring when no row matches. -/
def updateEmailRowByKey (tbl : EmailsTable) (now : Nat) (e : StoredEmail) :
    Option (EmailsTable × EmailRow) :=
  match tbl.rows.find? (fun r => r.fastmailId = e.fastmailId) with
  | none => none
  | some r0 =>
    some ({ tbl with
              rows := tbl.rows.map (fun r =>
                if r.fastmailId = e.fastmailId then applyEmailUpdate r now e else r) },
          applyEmailUpdate r0 now e)

/-- One iteration of the `storeEmails` loop (supabase-client.js lines
72-113): insert, fall back to update on a 23505 conflict, then refresh
the search row for the written email; a failed item is skipped with
`continue`. -/
def storeEmailOne (hash : String → String) (now : Nat) (tbl : EmailsTable)
    (search : List SearchRow) (e : StoredEmail) :
    EmailsTable × List SearchRow × Option EmailRow :=
  match insertEmailRow tbl now e with
  | .ok (tbl', r) => (tbl', upsertSearchRow hash search r.localId e, some r)
  | .error _ =>
    match updateEmailRowByKey tbl now e with
    | some (tbl', r) => (tbl', upsertSearchRow hash search r.localId e, some r)
    | none => (tbl, search, none)

/-- Result of a batch store: the updated tables and the aggregate
`results` array of successfully written rows. -/
structure StoreEmailsOut where
  tbl : EmailsTable
  search : List SearchRow
  results : List EmailRow
deriving DecidableEq, Repr

/-- `storeEmails(emails)`: process the batch one item at a time so that
per-item conflicts do not abort the batch. -/
def storeEmailsImpl (hash : String → String) (now : Nat) (tbl : EmailsTable)
    (search : List SearchRow) : List StoredEmail → StoreEmailsOut
  | [] => ⟨tbl, search, []⟩
  | e :: rest =>
    match storeEmailOne hash now tbl search e with
    | (tbl1, search1, res?) =>
      let out := storeEmailsImpl hash now tbl1 search1 rest
      ⟨out.tbl, out.search, (res?.toList) ++ out.results⟩

/-! ## Integrity repair (migrations/003, `repair_data_integrity`) -/

/-- The search text used by the SQL side (`repair_data_integrity` and
the `update_email_search_vector` trigger), which reads the real
`body_text` column. -/
def sqlSearchContentOf (r : EmailRow) : String :=
  r.subject ++ " " ++ r.fromAddress.getD "" ++ " " ++ r.bodyText ++ " " ++ r.bodyHtml

/-- `repair_data_integrity()` acting on the `email_search` table:
first delete rows whose `email_id` references no email, then insert a
row for every non-deleted email lacking one. Mailbox-counter
recomputation touches no email or search row and is omitted. -/
def repairDataIntegrity (hash : String → String) (tbl : EmailsTable)
    (search : List SearchRow) : List SearchRow :=
  let kept := search.filter (fun s => tbl.rows.any (fun e => e.localId = s.emailId))
  let missing := tbl.rows.filter (fun e =>
    !e.isDeleted && !(kept.any (fun s => s.emailId = e.localId)))
  kept ++ missing.map (fun e =>
    { emailId := e.localId
      searchVector := sqlSearchContentOf e
      contentHash := hash (sqlSearchContentOf e) })

/-! ## Search (migrations/002, `advanced_email_search`) -/

/-- The row set produced by `advanced_email_search`: the WHERE clause
starts from `e.is_deleted = false` and every optional argument appends
a further conjunct, abstracted here as the predicate `p`. The SQL
projects columns of these rows and orders them; the claims only need
the underlying row set. -/
def advancedEmailSearch (tbl : EmailsTable) (p : EmailRow → Bool) : List EmailRow :=
  tbl.rows.filter (fun e => !e.isDeleted && p e)

/-! ## Webhook delete handler (webhook server, `handleEmailDeleted`) -/

/-- `handleEmailDeleted`: `update emails set is_deleted = true,
updated_at = now where fastmail_id = emailId`. No other table is
touched. -/
def handleEmailDeletedRows (rows : List EmailRow) (emailId : String) (now : Nat) :
    List EmailRow :=
  rows.map (fun r =>
    if r.fastmailId = emailId then { r with isDeleted := true, updatedAt := now } else r)

/-! ## Webhook signature verification (webhook server) -/

/-- Value of a hexadecimal digit, or `none`. -/
def hexVal (c : Char) : Option Nat :=
  if '0' ≤ c ∧ c ≤ '9' then some (c.toNat - 48)
  else if 'a' ≤ c ∧ c ≤ 'f' then some (c.toNat - 87)
  else if 'A' ≤ c ∧ c ≤ 'F' then some (c.toNat - 55)
  else none

/-- `Buffer.from(s, 'hex')`: decode hexadecimal pairs left to right and
stop at the first invalid or incomplete pair. -/
def hexDecodeList : List Char → List Nat
  | c1 :: c2 :: rest =>
    match hexVal c1, hexVal c2 with
    | some h, some l => (16 * h + l) :: hexDecodeList rest
    | _, _ => []
  | _ => []

/-- Hex decoding on strings. -/
def hexDecode (s : String) : List Nat :=
  hexDecodeList s.toList

/-- `String.prototype.replace` with a plain-string pattern: replace the
first occurrence only (here by the empty string). -/
def replaceFirstAux (pat : List Char) : List Char → List Char
  | [] => []
  | c :: rest =>
    if (c :: rest).take pat.length = pat then (c :: rest).drop pat.length
    else c :: replaceFirstAux pat rest

/-- `signature.replace('sha256=', '')`. -/
def stripSigScheme (s : String) : String :=
  ⟨replaceFirstAux "sha256=".toList s.toList⟩

/-- Outcome of `verifyWebhookSignature`: the Node
`crypto.timingSafeEqual` throws a `RangeError` when its two buffers
differ in length, which propagates out of the method. -/
inductive VerifyResult
  | valid
  | invalid
  | threw
deriving DecidableEq, Repr

/-- `verifyWebhookSignature(req)` (webhook server lines 332-355).
`hmac` stands for HMAC-SHA256: secret and raw body to digest bytes.
A missing `X-Webhook-Signature` header and a missing (or empty, hence
falsy) configured secret both fail closed. The expected digest is
rendered as hex and re-decoded by `Buffer.from(·, 'hex')`, which is the
identity on the digest bytes. -/
def verifyWebhookSignature (hmac : String → String → List Nat)
    (secret : Option String) (sig : Option String) (body : String) : VerifyResult :=
  match sig with
  | none => .invalid
  | some sigv =>
    match secret with
    | none => .invalid
    | some sec =>
      let expected := hmac sec body
      let provided := hexDecode (stripSigScheme sigv)
      if expected.length ≠ provided.length then .threw
      else if expected = provided then .valid
      else .invalid

/-- Engine operations a webhook dispatch can invoke; each is the sole
way the handler reaches the database. -/
inductive EngineOp
  | syncEmailById (id : String)
  | markDeleted (id : String)
  | fullSync
deriving DecidableEq, Repr

/-- The parsed webhook body (the envelope fields the dispatch reads). -/
structure WebhookPayload where
  type : String
  accountId : String
  emailId : String
deriving DecidableEq, Repr

/-- The `switch (payload.type)` dispatch of `handleFastmailWebhook`:
received/updated pull one email, deleted writes the tombstone,
mailbox.updated triggers a full sync, anything else is logged only. -/
def dispatchWebhook (p : WebhookPayload) : List EngineOp :=
  if p.type = "email.received" then [.syncEmailById p.emailId]
  else if p.type = "email.updated" then [.syncEmailById p.emailId]
  else if p.type = "email.deleted" then [.markDeleted p.emailId]
  else if p.type = "mailbox.updated" then [.fullSync]
  else []

/-- `handleFastmailWebhook` (webhook server lines 105-146): failed
verification returns 401 before the body is parsed; an exception from
`timingSafeEqual` lands in the surrounding catch and returns 500; a
valid signature dispatches and answers 200. `payload` is the result of
`JSON.parse(req.body)` in the valid branch. The result pairs the HTTP
status with the engine operations invoked. -/
def handleFastmailWebhook (hmac : String → String → List Nat)
    (secret : Option String) (sig : Option String) (body : String)
    (payload : WebhookPayload) : Nat × List EngineOp :=
  match verifyWebhookSignature hmac secret sig body with
  | .threw => (500, [])
  | .invalid => (401, [])
  | .valid => (200, dispatchWebhook payload)

/-! ## OAuth token encryption (services/oauth-handler.js) -/

/-- The plaintext token fields that `encryptToken` reads. A JS-falsy
(absent or empty) refresh token is represented by the empty string,
matching the `if (token.refreshToken)` guard. -/
structure OAuthTokenPlain where
  accessToken : String
  refreshToken : String
  tokenType : String
  scope : String
deriving DecidableEq, Repr

/-- A row of the `oauth_tokens` table as written by `storeToken`:
`access_token` and `refresh_token` hold the cipher output. -/
structure OAuthTokenRow where
  accountId : String
  accessTokenCol : String
  refreshTokenCol : String
  tokenType : String
  scope : String
deriving DecidableEq, Repr

/-- `encryptToken` followed by the column mapping of `storeToken`
(oauth-handler.js lines 293-332 and 399-421). `enc` is the
aes192 cipher `update`+`final` composition on strings. The refresh
token is only encrypted when truthy; otherwise the column stores the
empty string. -/
def storeTokenRow (enc : String → String) (accountId : String)
    (t : OAuthTokenPlain) : OAuthTokenRow :=
  { accountId := accountId
    accessTokenCol := enc t.accessToken
    refreshTokenCol := if t.refreshToken = "" then "" else enc t.refreshToken
    tokenType := t.tokenType
    scope := t.scope }

/-- `decryptToken(data)` (oauth-handler.js lines 426-448) reading an
`oauth_tokens` row as fetched by `getStoredToken`: `access_token` is
always deciphered; `refresh_token` only when truthy. `dec` is the
matching aes192 decipher composition. -/
def decryptToken (dec : String → String) (r : OAuthTokenRow) : OAuthTokenPlain :=
  { accessToken := dec r.accessTokenCol
    refreshToken := if r.refreshTokenCol = "" then "" else dec r.refreshTokenCol
    tokenType := r.tokenType
    scope := r.scope }

/-! ## JMAP client email query (fastmail-client.js, `getEmails`) -/

/-- One element of the JMAP `sort` argument. -/
structure SortSpec where
  property : String
  isAscending : Bool
deriving DecidableEq, Repr

/-- The default sort that `getEmails` destructures when the caller
passes no `sort` option: `[{ property: 'date', isAscending: false }]`. -/
def defaultEmailSort : List SortSpec :=
  [{ property := "date", isAscending := false }]

/-- The options object accepted by `getEmails`; `sort = none` means the
caller omitted the key, so the default applies. -/
structure GetEmailsOptions where
  since : Option String
  limit : Nat
  sort : Option (List SortSpec)
deriving DecidableEq, Repr

/-- The `Email/query` arguments the client sends: the `since` filter
when present, the (possibly defaulted) sort, and the limit. -/
structure EmailQueryParams where
  sinceFilter : Option String
  sort : List SortSpec
  limit : Nat
deriving DecidableEq, Repr

/-- How `getEmails` (fastmail-client.js lines 193-233) assembles the
`Email/query` arguments from its options. -/
def emailQueryParams (opts : GetEmailsOptions) : EmailQueryParams :=
  { sinceFilter := opts.since
    sort := opts.sort.getD defaultEmailSort
    limit := opts.limit }

/-! ## Sync-state table (migrations/003) -/

/-- A row of `sync_state`. -/
structure SyncStateRow where
  accountId : String
  lastSyncToken : Option String
  totalEmailsSynced : Nat
  lastError : Option String
  syncStatus : String
  updatedAt : Nat
deriving DecidableEq, Repr

/-- Look up the cursor row of an account. -/
def getSyncState (l : List SyncStateRow) (a : String) : Option SyncStateRow :=
  l.find? (fun s => s.accountId = a)

/-- `initialize_sync_state(account, token)`: insert an idle cursor, or
on conflict keep the existing token when the parameter is null, reset
status and error. -/
def initializeSyncState (l : List SyncStateRow) (a : String)
    (tok : Option String) (now : Nat) : List SyncStateRow :=
  if l.any (fun s => s.accountId = a) then
    l.map (fun s =>
      if s.accountId = a then
        { s with lastSyncToken := tok.orElse (fun _ => s.lastSyncToken)
                 syncStatus := "idle", lastError := none, updatedAt := now }
      else s)
  else
    l ++ [{ accountId := a, lastSyncToken := tok, totalEmailsSynced := 0
            lastError := none, syncStatus := "idle", updatedAt := now }]

/-- `update_sync_progress(account, token, n, status)`: overwrite the
token, add `n` to the running total, set the status, clear the error;
insert the row if the account has none. -/
def updateSyncProgress (l : List SyncStateRow) (a : String) (tok : Option String)
    (n : Nat) (status : String) (now : Nat) : List SyncStateRow :=
  if l.any (fun s => s.accountId = a) then
    l.map (fun s =>
      if s.accountId = a then
        { s with lastSyncToken := tok
                 totalEmailsSynced := s.totalEmailsSynced + n
                 syncStatus := status, lastError := none, updatedAt := now }
      else s)
  else
    l ++ [{ accountId := a, lastSyncToken := tok, totalEmailsSynced := n
            lastError := none, syncStatus := status, updatedAt := now }]

/-- `record_sync_error(account, message)`. -/
def recordSyncError (l : List SyncStateRow) (a : String) (msg : String)
    (now : Nat) : List SyncStateRow :=
  if l.any (fun s => s.accountId = a) then
    l.map (fun s =>
      if s.accountId = a then
        { s with lastError := some msg, syncStatus := "error", updatedAt := now }
      else s)
  else
    l ++ [{ accountId := a, lastSyncToken := none, totalEmailsSynced := 0
            lastError := some msg, syncStatus := "error", updatedAt := now }]

/-! ## Configuration (index entry point, `loadConfig`) -/

/-- JS `parseInt` on an environment value: the longest leading digit
run, `NaN` (`none`) when there is none. -/
def parseIntJs (s : String) : Option Nat :=
  let ds := s.toList.takeWhile (fun c => c.isDigit)
  if ds.isEmpty then none
  else some (ds.foldl (fun n c => n * 10 + (c.toNat - 48)) 0)

/-- `parseInt(x) || d`: `NaN` and `0` are falsy and fall back to the
default. -/
def jsOrNat (v : Option Nat) (d : Nat) : Nat :=
  match v with
  | none => d
  | some 0 => d
  | some n => n

/-- The `sync` section of `loadConfig` (index entry point lines
617-622). -/
structure SyncConfig where
  intervalMinutes : Nat
  batchSize : Nat
  maxRetries : Nat
  retryDelayMs : Nat
deriving DecidableEq, Repr

/-- `loadConfig().sync` from an environment map. -/
def loadSyncConfig (env : List (String × String)) : SyncConfig :=
  { intervalMinutes := jsOrNat ((env.lookup "SYNC_INTERVAL_MINUTES").bind parseIntJs) 15
    batchSize := jsOrNat ((env.lookup "BATCH_SIZE").bind parseIntJs) 100
    maxRetries := jsOrNat ((env.lookup "MAX_RETRIES").bind parseIntJs) 3
    retryDelayMs := jsOrNat ((env.lookup "RETRY_DELAY_MS").bind parseIntJs) 5000 }

/-! ## Sync engine (services/email-sync.js) -/

/-- `chunkArray(array, chunkSize)`: slice into consecutive chunks of
`n`. The JS loop does not terminate for `n = 0`; every call site
guards the size with `|| 100`, and the model returns `[]` there. -/
def chunkArrayGo (fuel : Nat) (l : List α) (n : Nat) : List (List α) :=
  match fuel, l with
  | _, [] => []
  | 0, _ => []
  | fuel + 1, x :: xs => (x :: xs).take n :: chunkArrayGo fuel ((x :: xs).drop n) n

/-- The loop advances by `n ≥ 1` elements per iteration, so a fuel of
`l.length` always suffices; the fuel only makes the recursion
structural. -/
def chunkArray (l : List α) (n : Nat) : List (List α) :=
  if n = 0 then [] else chunkArrayGo l.length l n

/-- A mailbox row (only the natural key and name matter here). -/
structure MailboxRow where
  fastmailId : String
  name : String
deriving DecidableEq, Repr

/-- Upsert one mailbox by natural key (the insert-then-update loop of
`storeMailboxes`). -/
def upsertMailbox (rows : List MailboxRow) (m : MailboxRow) : List MailboxRow :=
  if rows.any (fun r => r.fastmailId = m.fastmailId) then
    rows.map (fun r => if r.fastmailId = m.fastmailId then m else r)
  else rows ++ [m]

/-- `storeMailboxes`. -/
def storeMailboxesImpl (rows : List MailboxRow) (ms : List MailboxRow) :
    List MailboxRow :=
  ms.foldl upsertMailbox rows

/-- Output of the `syncEmails` while-loop: the updated email and
search tables, the `Email/query` calls issued, the number of emails
persisted, and whether the loop exited through one of its two break
conditions. `exited = false` means the supplied response trace ran
out while the loop still wanted to query again. -/
structure SyncEmailsOut where
  tbl : EmailsTable
  search : List SearchRow
  queries : List EmailQueryParams
  total : Nat
  exited : Bool
deriving DecidableEq, Repr

/-- The `syncEmails` while-loop (email-sync.js lines 212-244), one
provider response per iteration. Each response is the pair of the
query state the provider returned (which `getEmails` discards) and the
raw email list. Every `getEmails` call passes `{ since: lastSyncToken,
limit: batchSize }` and omits `sort`; the local `lastSyncToken`
variable is never reassigned, so each recursive call queries with the
same token. A nonempty response is chunked and each chunk stored via
`storeEmails`; the loop breaks on an empty response or one shorter
than `batchSize`. -/
def syncEmailsGo (hash : String → String) (now : Nat) (tok : Option String)
    (batchSize : Nat) : List (String × List FastmailEmailData) → EmailsTable →
    List SearchRow → SyncEmailsOut
  | [], tbl, search => ⟨tbl, search, [], 0, false⟩
  | (_, raw) :: rest, tbl, search =>
    let q := emailQueryParams { since := tok, limit := batchSize, sort := none }
    let emails := raw.map FastmailEmail.ofData
    if emails.isEmpty then ⟨tbl, search, [q], 0, true⟩
    else
      let chunks := chunkArray emails batchSize
      let step := chunks.foldl
        (fun (acc : EmailsTable × List SearchRow × Nat) c =>
          let stored := c.map (fun e => StoredEmail.fromFastmailEmail e none)
          let out := storeEmailsImpl hash now acc.1 acc.2.1 stored
          (out.tbl, out.search, acc.2.2 + c.length))
        (tbl, search, 0)
      if emails.length < batchSize then
        ⟨step.1, step.2.1, [q], step.2.2, true⟩
      else
        let out := syncEmailsGo hash now tok batchSize rest step.1 step.2.1
        ⟨out.tbl, out.search, q :: out.queries, step.2.2 + out.total, out.exited⟩

/-- The whole persistent store the engine touches. -/
structure Store where
  emails : EmailsTable
  search : List SearchRow
  mailboxes : List MailboxRow
  syncStates : List SyncStateRow
deriving DecidableEq, Repr

/-- The provider-side behaviour a tick consumes: the result of the
single `validateToken` call, the account id of the session, the
mailbox listing, and successive `Email/query` responses (provider
state paired with the ids resolved to full records). -/
structure Provider where
  tokenOk : Bool
  accountId : String
  mailboxes : List MailboxRow
  batches : List (String × List FastmailEmailData)
deriving DecidableEq, Repr

/-- `EmailSyncStats` is constructed with `new EmailSyncStats({})` and
has no `lastSyncToken` field; nothing in the sync path ever assigns
one, so the read `stats.lastSyncToken` in `performSync` is always
undefined. -/
def statsLastSyncToken : Option String := none

/-- `stats.updatedEmails` is initialized to 0 and never incremented
anywhere in the sync path. -/
def statsUpdatedEmails : Nat := 0

/-- Decidable equality for tick outcomes. -/
instance exceptStringUnitDecEq : DecidableEq (Except String Unit) := fun x y =>
  match x, y with
  | .ok (), .ok () => isTrue rfl
  | .error a, .error b =>
    if h : a = b then isTrue (by rw [h])
    else isFalse (fun he => by cases he; exact h rfl)
  | .ok _, .error _ => isFalse (fun he => by cases he)
  | .error _, .ok _ => isFalse (fun he => by cases he)

/-- Outcome of one `performSync` tick. `validateCalls` counts the
`validateToken` invocations the tick performed; `truncated` records
that the provider response trace ended before the email loop hit a
break condition (such a run is not a completed tick). -/
structure TickRun where
  store : Store
  outcome : Except String Unit
  validateCalls : Nat
  queries : List EmailQueryParams
  truncated : Bool
deriving DecidableEq, Repr

/-- `performSync` (email-sync.js lines 95-175). The failure modelled
is the one a transient provider outage produces: `validateToken`
catches the network error and returns false, `performSync` throws
`Invalid Fastmail access token` without any retry, and — `accountInfo`
still being null — records nothing on the cursor. On the success path:
read (or initialize) the cursor, stamp it `syncing` with its own
token, upsert the mailboxes, run the email loop with
`since = syncState.last_sync_token` and
`batchSize = this.config.batchSize || 100`, then write the final
progress row with `stats.lastSyncToken || syncState.last_sync_token`
(always the old token, see `statsLastSyncToken`),
`stats.newEmails + stats.updatedEmails` added emails, and status
`completed`. -/
def performSync (hash : String → String) (now : Nat) (batchSizeCfg : Option Nat)
    (prov : Provider) (st : Store) : TickRun :=
  if prov.tokenOk = false then
    { store := st, outcome := .error "Invalid Fastmail access token"
      validateCalls := 1, queries := [], truncated := false }
  else
    let a := prov.accountId
    let states1 :=
      if (getSyncState st.syncStates a).isSome then st.syncStates
      else initializeSyncState st.syncStates a none now
    let syncState := (getSyncState states1 a).getD
      { accountId := a, lastSyncToken := none, totalEmailsSynced := 0
        lastError := none, syncStatus := "idle", updatedAt := now }
    let states2 := updateSyncProgress states1 a syncState.lastSyncToken 0 "syncing" now
    let mailboxes' := storeMailboxesImpl st.mailboxes prov.mailboxes
    let batchSize := jsOrNat batchSizeCfg 100
    let loop := syncEmailsGo hash now syncState.lastSyncToken batchSize
      prov.batches st.emails st.search
    let finalTok := statsLastSyncToken.orElse (fun _ => syncState.lastSyncToken)
    let states3 := updateSyncProgress states2 a finalTok
      (loop.total + statsUpdatedEmails) "completed" now
    { store := { emails := loop.tbl, search := loop.search
                 mailboxes := mailboxes', syncStates := states3 }
      outcome := .ok (), validateCalls := 1, queries := loop.queries
      truncated := !loop.exited }

/-! ## Concrete fixtures used by witnesses and counterexamples -/

/-- Sample digest function standing in for MD5 where the digest value
itself is irrelevant. -/
def hashFn0 : String → String := fun s => s

/-- A read email. -/
def d1 : FastmailEmailData :=
  { id := "e1", threadId := "t1", subject := "Privacy Policy", fromAddrs := ["a@x"]
    keywords := [("$seen", true)], textBody := "b1", htmlBody := "h1", size := 10 }

/-- An email with no keywords. -/
def d2 : FastmailEmailData :=
  { id := "e2", threadId := "t1", subject := "s2", fromAddrs := []
    keywords := [], textBody := "b2", htmlBody := "h2", size := 20 }

/-- An email carrying the `$deleted` keyword. -/
def d3 : FastmailEmailData :=
  { id := "e3", threadId := "t2", subject := "s3", fromAddrs := ["c@x"]
    keywords := [("$deleted", true)], textBody := "b3", htmlBody := "h3", size := 30 }

/-- Two-batch provider trace: a full batch with provider state `s1`,
then a short one with state `s2`. -/
def provC1 : Provider :=
  { tokenOk := true, accountId := "acct", mailboxes := [⟨"mb1", "Inbox"⟩]
    batches := [("s1", [d1, d2]), ("s2", [d3])] }

/-- A provider whose first `validateToken` fails transiently and would
succeed on a retry. -/
def provC3 : Provider :=
  { tokenOk := false, accountId := "acct", mailboxes := [⟨"mb1", "Inbox"⟩]
    batches := [("s1", [d1])] }

/-- A store holding a cursor at token `tok0` with 5 emails synced. -/
def storeC1 : Store :=
  { emails := ⟨[], 0⟩, search := [], mailboxes := []
    syncStates := [{ accountId := "acct", lastSyncToken := some "tok0"
                     totalEmailsSynced := 5, lastError := none
                     syncStatus := "idle", updatedAt := 0 }] }

/-- A 32-byte constant digest standing in for HMAC-SHA256 in closed
statements; only its (correct) output length matters. -/
def hmacZero : String → String → List Nat := fun _ _ => List.replicate 32 0

/-- A sample parsed webhook payload. -/
def payload0 : WebhookPayload :=
  { type := "email.received", accountId := "acct", emailId := "e9" }

/-- A sample plaintext OAuth token. -/
def tok0 : OAuthTokenPlain :=
  { accessToken := "acc-tok", refreshToken := "ref-tok"
    tokenType := "bearer", scope := "mail" }

/-! ## Helper lemmas about the store operations -/

/-- The written row carries exactly the upserted email's content. -/
def rowOfEmail (r : EmailRow) (e : StoredEmail) : Prop :=
  r.fastmailId = e.fastmailId ∧ r.mailboxId = e.mailboxId ∧ r.subject = e.subject ∧
  r.fromAddress = e.fromAddress ∧ r.bodyText = e.bodyText ∧ r.bodyHtml = e.bodyHtml ∧
  r.isRead = e.isRead ∧ r.isFlagged = e.isFlagged ∧ r.isDeleted = e.isDeleted

/-- Pairwise distinctness of the `fastmail_id` natural key, the unique
constraint of the `emails` table. -/
def UniqKeys (rows : List EmailRow) : Prop :=
  rows.Pairwise (fun a b => a.fastmailId ≠ b.fastmailId)

theorem rowOfEmail_mk (id now : Nat) (e : StoredEmail) :
    rowOfEmail (mkEmailRow id now e) e :=
  ⟨rfl, rfl, rfl, rfl, rfl, rfl, rfl, rfl, rfl⟩

theorem rowOfEmail_update (r : EmailRow) (now : Nat) (e : StoredEmail) :
    rowOfEmail (applyEmailUpdate r now e) e :=
  ⟨rfl, rfl, rfl, rfl, rfl, rfl, rfl, rfl, rfl⟩

theorem upsertSearchRow_spec (hash : String → String) (search : List SearchRow)
    (id : Nat) (e : StoredEmail) :
    ∃ s ∈ upsertSearchRow hash search id e,
      s.emailId = id ∧ s.searchVector = searchContentOf e ∧
      s.contentHash = hash (searchContentOf e) := by
  unfold upsertSearchRow
  by_cases h : search.any (fun s => s.emailId = id)
  · obtain ⟨s0, hs0, hid⟩ := List.any_eq_true.mp h
    simp only [decide_eq_true_eq] at hid
    simp only [h, if_true]
    exact ⟨_, List.mem_map.mpr ⟨s0, hs0, rfl⟩, by simp [hid], by simp [hid], by simp [hid]⟩
  · have h' : search.any (fun s => s.emailId = id) = false := Bool.eq_false_iff.mpr h
    simp only [h', Bool.false_eq_true, if_false]
    exact ⟨⟨id, searchContentOf e, hash (searchContentOf e)⟩,
      List.mem_append_right _ (List.mem_singleton.mpr rfl), rfl, rfl, rfl⟩

theorem storeEmailOne_spec (hash : String → String) (now : Nat) (tbl : EmailsTable)
    (search : List SearchRow) (e : StoredEmail) :
    ∃ tbl' search' r,
      storeEmailOne hash now tbl search e = (tbl', search', some r) ∧
      rowOfEmail r e ∧ r ∈ tbl'.rows ∧
      (∃ s ∈ search', s.emailId = r.localId ∧ s.searchVector = searchContentOf e ∧
        s.contentHash = hash (searchContentOf e)) ∧
      (∀ r0 ∈ tbl.rows, ∃ r1 ∈ tbl'.rows,
        r1.fastmailId = r0.fastmailId ∧ r1.localId = r0.localId) ∧
      (UniqKeys tbl.rows → UniqKeys tbl'.rows) := by
  unfold storeEmailOne insertEmailRow
  by_cases h : tbl.rows.any (fun r => r.fastmailId = e.fastmailId)
  · -- unique violation: the update fallback runs
    simp only [h, if_true]
    obtain ⟨r0any, _hr0mem, _hr0key⟩ := List.any_eq_true.mp h
    have hfind : (tbl.rows.find? (fun r => r.fastmailId = e.fastmailId)).isSome := by
      rw [List.find?_isSome]
      exact ⟨r0any, _hr0mem, _hr0key⟩
    obtain ⟨r0, hr0⟩ := Option.isSome_iff_exists.mp hfind
    have hr0key : r0.fastmailId = e.fastmailId := by
      have := List.find?_some hr0
      simpa using this
    have hr0mem : r0 ∈ tbl.rows := List.mem_of_find?_eq_some hr0
    unfold updateEmailRowByKey
    rw [hr0]
    refine ⟨_, _, applyEmailUpdate r0 now e, rfl, rowOfEmail_update r0 now e, ?_, ?_, ?_, ?_⟩
    · -- the updated row is in the mapped table
      exact List.mem_map.mpr ⟨r0, hr0mem, by simp [hr0key]⟩
    · exact upsertSearchRow_spec hash search (applyEmailUpdate r0 now e).localId e
    · intro r1 h1
      refine ⟨(fun r => if r.fastmailId = e.fastmailId
          then applyEmailUpdate r now e else r) r1, List.mem_map_of_mem _ h1, ?_, ?_⟩
      · by_cases hk : r1.fastmailId = e.fastmailId <;> simp [hk, applyEmailUpdate]
      · by_cases hk : r1.fastmailId = e.fastmailId <;> simp [hk, applyEmailUpdate]
    · intro hu
      have hkey : ∀ r1 : EmailRow,
          ((fun r => if r.fastmailId = e.fastmailId
            then applyEmailUpdate r now e else r) r1).fastmailId = r1.fastmailId := by
        intro r1
        by_cases hk : r1.fastmailId = e.fastmailId <;> simp [hk, applyEmailUpdate]
      exact List.Pairwise.map _ (fun a b hab => by rw [hkey a, hkey b]; exact hab) hu
  · -- plain insert
    have h' : tbl.rows.any (fun r => r.fastmailId = e.fastmailId) = false :=
      Bool.eq_false_iff.mpr h
    simp only [h', Bool.false_eq_true, if_false]
    refine ⟨_, _, mkEmailRow tbl.nextId now e, rfl, rowOfEmail_mk _ _ _, ?_, ?_, ?_, ?_⟩
    · exact List.mem_append_right _ (List.mem_singleton.mpr rfl)
    · exact upsertSearchRow_spec hash search (mkEmailRow tbl.nextId now e).localId e
    · intro r0 h0
      exact ⟨r0, List.mem_append_left _ h0, rfl, rfl⟩
    · intro hu
      rw [UniqKeys, List.pairwise_append]
      refine ⟨hu, List.pairwise_singleton _ _, ?_⟩
      intro a ha b hb
      rw [List.mem_singleton] at hb
      subst hb
      have := List.any_eq_false.mp h' a ha
      simpa [mkEmailRow] using this

theorem storeEmailsImpl_spec (hash : String → String) (now : Nat)
    (batch : List StoredEmail) :
    ∀ (tbl : EmailsTable) (search : List SearchRow),
      (storeEmailsImpl hash now tbl search batch).results.length = batch.length ∧
      List.Forall₂ (fun r e => rowOfEmail r e)
        (storeEmailsImpl hash now tbl search batch).results batch ∧
      (∀ e ∈ batch, ∃ r ∈ (storeEmailsImpl hash now tbl search batch).tbl.rows,
        r.fastmailId = e.fastmailId) ∧
      (∀ r0 ∈ tbl.rows, ∃ r1 ∈ (storeEmailsImpl hash now tbl search batch).tbl.rows,
        r1.fastmailId = r0.fastmailId ∧ r1.localId = r0.localId) ∧
      (UniqKeys tbl.rows → UniqKeys (storeEmailsImpl hash now tbl search batch).tbl.rows) := by
  induction batch with
  | nil =>
    intro tbl search
    refine ⟨rfl, List.Forall₂.nil, ?_, ?_, fun hu => hu⟩
    · intro e he
      cases he
    · intro r0 h0
      exact ⟨r0, h0, rfl, rfl⟩
  | cons e rest ih =>
    intro tbl search
    obtain ⟨tbl1, search1, r, heq, hrow, hrmem, _hsr, hpres, huniq⟩ :=
      storeEmailOne_spec hash now tbl search e
    have hunf : storeEmailsImpl hash now tbl search (e :: rest) =
        ⟨(storeEmailsImpl hash now tbl1 search1 rest).tbl,
         (storeEmailsImpl hash now tbl1 search1 rest).search,
         r :: (storeEmailsImpl hash now tbl1 search1 rest).results⟩ := by
      simp [storeEmailsImpl, heq, Option.toList]
    obtain ⟨ihlen, ihfa, ihpresent, ihpres, ihuniq⟩ := ih tbl1 search1
    rw [hunf]
    refine ⟨?_, ?_, ?_, ?_, ?_⟩
    · simpa using ihlen
    · exact List.Forall₂.cons hrow ihfa
    · intro e' he'
      rcases List.mem_cons.mp he' with he' | he'
      · subst he'
        obtain ⟨r1, h1, hk, _⟩ := ihpres r hrmem
        exact ⟨r1, h1, hk.trans hrow.1⟩
      · exact ihpresent e' he'
    · intro r0 h0
      obtain ⟨r1, h1, hk1, hl1⟩ := hpres r0 h0
      obtain ⟨r2, h2, hk2, hl2⟩ := ihpres r1 h1
      exact ⟨r2, h2, hk2.trans hk1, hl2.trans hl1⟩
    · intro hu
      exact ihuniq (huniq hu)

theorem repairDataIntegrity_no_orphans (hash : String → String) (tbl : EmailsTable)
    (search : List SearchRow) :
    ∀ s ∈ repairDataIntegrity hash tbl search,
      ∃ e ∈ tbl.rows, e.localId = s.emailId := by
  intro s hs
  unfold repairDataIntegrity at hs
  rcases List.mem_append.mp hs with hk | hm
  · have := List.of_mem_filter hk
    obtain ⟨e, he, hid⟩ := List.any_eq_true.mp this
    exact ⟨e, he, of_decide_eq_true hid⟩
  · obtain ⟨e, he, heq⟩ := List.mem_map.mp hm
    refine ⟨e, List.mem_of_mem_filter he, ?_⟩
    rw [← heq]

theorem repairDataIntegrity_coverage (hash : String → String) (tbl : EmailsTable)
    (search : List SearchRow) :
    ∀ e ∈ tbl.rows, e.isDeleted = false →
      ∃ s ∈ repairDataIntegrity hash tbl search, s.emailId = e.localId := by
  intro e he hdel
  unfold repairDataIntegrity
  set kept := search.filter (fun s => tbl.rows.any (fun e' => e'.localId = s.emailId))
    with hkept
  by_cases h : kept.any (fun s => s.emailId = e.localId)
  · obtain ⟨s0, hs0, hid⟩ := List.any_eq_true.mp h
    exact ⟨s0, List.mem_append_left _ hs0, of_decide_eq_true hid⟩
  · have h' : kept.any (fun s => s.emailId = e.localId) = false := Bool.eq_false_iff.mpr h
    refine ⟨{ emailId := e.localId, searchVector := sqlSearchContentOf e
              contentHash := hash (sqlSearchContentOf e) }, ?_, rfl⟩
    refine List.mem_append_right _ (List.mem_map.mpr ⟨e, ?_, rfl⟩)
    refine List.mem_filter.mpr ⟨he, ?_⟩
    simp [hdel, h']

theorem handleEmailDeletedRows_marks (rows : List EmailRow) (emailId : String)
    (now : Nat) :
    ∀ r ∈ handleEmailDeletedRows rows emailId now,
      r.fastmailId = emailId → r.isDeleted = true ∧ r.updatedAt = now := by
  intro r hr hk
  obtain ⟨r0, _hr0, heq⟩ := List.mem_map.mp hr
  by_cases h0 : r0.fastmailId = emailId
  · rw [← heq]
    simp [h0]
  · rw [← heq] at hk
    simp [h0] at hk

theorem handleEmailDeletedRows_frame (rows : List EmailRow) (emailId : String)
    (now : Nat) :
    (handleEmailDeletedRows rows emailId now).filter
        (fun r => !(r.fastmailId = emailId)) =
      rows.filter (fun r => !(r.fastmailId = emailId)) := by
  induction rows with
  | nil => rfl
  | cons r rest ih =>
    by_cases h : r.fastmailId = emailId
    · simp [handleEmailDeletedRows, List.filter, h] at ih ⊢
      exact ih
    · simp [handleEmailDeletedRows, List.filter, h] at ih ⊢
      exact ih

theorem advancedEmailSearch_not_deleted (tbl : EmailsTable) (p : EmailRow → Bool) :
    ∀ r ∈ advancedEmailSearch tbl p, r.isDeleted = false := by
  intro r hr
  have := List.of_mem_filter hr
  simp only [Bool.and_eq_true, Bool.not_eq_true'] at this
  exact this.1

theorem advancedEmailSearch_sub (tbl : EmailsTable) (p : EmailRow → Bool) :
    ∀ r ∈ advancedEmailSearch tbl p, r ∈ tbl.rows := by
  intro r hr
  exact List.mem_of_mem_filter hr

theorem syncEmailsGo_queries_spec (hash : String → String) (now : Nat)
    (tok : Option String) (batchSize : Nat)
    (batches : List (String × List FastmailEmailData)) :
    ∀ (tbl : EmailsTable) (search : List SearchRow),
      ∀ q ∈ (syncEmailsGo hash now tok batchSize batches tbl search).queries,
        q = emailQueryParams { since := tok, limit := batchSize, sort := none } := by
  induction batches with
  | nil =>
    intro tbl search q hq
    simp [syncEmailsGo] at hq
  | cons b rest ih =>
    intro tbl search q hq
    obtain ⟨s, raw⟩ := b
    simp only [syncEmailsGo] at hq
    by_cases h1 : (raw.map FastmailEmail.ofData).isEmpty
    · simp only [h1, if_true] at hq
      simpa using hq
    · have h1' : (raw.map FastmailEmail.ofData).isEmpty = false :=
        Bool.eq_false_iff.mpr h1
      simp only [h1', Bool.false_eq_true, if_false] at hq
      by_cases h2 : (raw.map FastmailEmail.ofData).length < batchSize
      · simp only [h2, if_true] at hq
        simpa using hq
      · simp only [h2, if_false] at hq
        simp only [List.mem_cons] at hq
        rcases hq with hq | hq
        · exact hq
        · exact ih _ _ q hq

theorem syncEmailsGo_exited_iff (hash : String → String) (now : Nat)
    (tok : Option String) (batchSize : Nat)
    (batches : List (String × List FastmailEmailData)) :
    ∀ (tbl : EmailsTable) (search : List SearchRow),
      (syncEmailsGo hash now tok batchSize batches tbl search).exited = true ↔
        ∃ b ∈ batches, b.2.length = 0 ∨ b.2.length < batchSize := by
  induction batches with
  | nil =>
    intro tbl search
    simp [syncEmailsGo]
  | cons b rest ih =>
    intro tbl search
    obtain ⟨s, raw⟩ := b
    simp only [syncEmailsGo]
    by_cases h1 : (raw.map FastmailEmail.ofData).isEmpty
    · have hnil : raw = [] := by
        have hmap := List.isEmpty_iff.mp h1
        exact List.map_eq_nil_iff.mp hmap
      simp only [h1, if_true]
      simp [hnil]
    · have h1' : (raw.map FastmailEmail.ofData).isEmpty = false :=
        Bool.eq_false_iff.mpr h1
      have hnil : raw ≠ [] := by
        intro h0
        apply h1
        rw [List.isEmpty_iff, List.map_eq_nil_iff]
        exact h0
      simp only [h1', Bool.false_eq_true, if_false]
      by_cases h2 : (raw.map FastmailEmail.ofData).length < batchSize
      · have h2' : raw.length < batchSize := by simpa using h2
        simp only [h2, if_true]
        simp [h2']
      · have h2' : ¬ raw.length < batchSize := by simpa using h2
        simp only [h2, if_false]
        rw [ih]
        constructor
        · intro ⟨b, hb, hc⟩
          exact ⟨b, List.mem_cons_of_mem _ hb, hc⟩
        · intro ⟨b, hb, hc⟩
          rcases List.mem_cons.mp hb with hb | hb
          · subst hb
            simp only [List.length_eq_zero] at hc
            rcases hc with hc | hc
            · exact absurd hc hnil
            · exact absurd hc h2'
          · exact ⟨b, hb, hc⟩

/-! ## Further fixtures for witnesses and counterexamples -/

/-- A non-deleted persisted email row. -/
def rowW : EmailRow :=
  { localId := 0, fastmailId := "e2", mailboxId := none, subject := "s"
    fromAddress := none, bodyText := "b", bodyHtml := "h", isRead := false
    isFlagged := false, isDeleted := false, updatedAt := 0 }

/-- A one-row emails table. -/
def tblW : EmailsTable := ⟨[rowW], 1⟩

/-- A sample stored email. -/
def emailW : StoredEmail :=
  StoredEmail.fromFastmailEmail (FastmailEmail.ofData d1) none

/-- A store containing only `rowW`. -/
def storeW : Store :=
  { emails := tblW, search := [], mailboxes := [], syncStates := [] }

/-- The tables after upserting the `$deleted`-flagged email `d3` into
an empty store. -/
def c4Out : StoreEmailsOut :=
  storeEmailsImpl hashFn0 3 ⟨[], 0⟩ []
    [StoredEmail.fromFastmailEmail (FastmailEmail.ofData d3) none]

/-- The email-pull loop run against the two-batch trace of `provC1`. -/
def runC8 : SyncEmailsOut :=
  syncEmailsGo hashFn0 0 (some "tok0") 2 [("s1", [d1, d2]), ("s2", [d3])] ⟨[], 0⟩ []

/-! ## Claims -/

/-- C1. The claim states that after a tick that successfully pulls n
emails the cursor holds the provider's latest state, total_emails_synced
has increased by n, and sync_status is completed. On the two-batch run
(initial token tok0, provider states s1 then s2, 3 emails, prior total
5) the tick completes, the total rises to 8 and the status is
completed, but last_sync_token is still tok0 — not the provider's
latest state s2: `performSync` writes
`stats.lastSyncToken || syncState.last_sync_token` and
`stats.lastSyncToken` is never assigned, so the cursor token never
advances. -/
theorem C1_cursor_not_advanced :
    (performSync hashFn0 7 (some 2) provC1 storeC1).outcome = .ok () ∧
    (performSync hashFn0 7 (some 2) provC1 storeC1).truncated = false ∧
    getSyncState (performSync hashFn0 7 (some 2) provC1 storeC1).store.syncStates "acct" =
      some { accountId := "acct", lastSyncToken := some "tok0"
             totalEmailsSynced := 8, lastError := none
             syncStatus := "completed", updatedAt := 7 } ∧
    (some "tok0" : Option String) ≠ some "s2" := by
  decide

/-- C2 counterexample. A POST whose provided digest does not equal the
keyed HMAC of the body — here an empty hex digest against a 32-byte
HMAC — yields response 500, not the claimed 401, because
`crypto.timingSafeEqual` throws on buffers of unequal length and the
exception lands in the generic 500 handler. -/
theorem C2_counterexample :
    hexDecode (stripSigScheme "sha256=") ≠ hmacZero "sec" "b" ∧
    handleFastmailWebhook hmacZero (some "sec") (some "sha256=") "b" payload0 = (500, []) ∧
    (handleFastmailWebhook hmacZero (some "sec") (some "sha256=") "b" payload0).1 ≠ 401 := by
  decide

/-- C2 (amended). For every POST to the webhook endpoint: a missing
signature header gives 401; a missing configured secret gives 401; a
provided digest of the digest's length (32 bytes) that differs from
the keyed HMAC of the raw body gives 401; a provided digest of any
other length makes the comparison throw and gives 500. In all four
cases no engine operation is invoked and no row is written. -/
theorem C2_webhook_auth_amended (hmac : String → String → List Nat)
    (hlen : ∀ s b, (hmac s b).length = 32)
    (secret sig : Option String) (body : String) (payload : WebhookPayload) :
    (sig = none → handleFastmailWebhook hmac secret sig body payload = (401, [])) ∧
    (secret = none → handleFastmailWebhook hmac secret sig body payload = (401, [])) ∧
    (∀ s sg, secret = some s → sig = some sg →
      (hexDecode (stripSigScheme sg)).length = 32 →
      hexDecode (stripSigScheme sg) ≠ hmac s body →
      handleFastmailWebhook hmac secret sig body payload = (401, [])) ∧
    (∀ s sg, secret = some s → sig = some sg →
      (hexDecode (stripSigScheme sg)).length ≠ 32 →
      handleFastmailWebhook hmac secret sig body payload = (500, [])) := by
  refine ⟨?_, ?_, ?_, ?_⟩
  · intro h
    subst h
    rfl
  · intro h
    subst h
    cases sig with
    | none => rfl
    | some sg => rfl
  · intro s sg hs hsg hlen32 hneq
    subst hs
    subst hsg
    simp only [handleFastmailWebhook, verifyWebhookSignature]
    rw [if_neg (by rw [hlen s body, hlen32]; exact fun h => h rfl)]
    rw [if_neg (fun h => hneq h.symm)]
  · intro s sg hs hsg hne
    subst hs
    subst hsg
    simp only [handleFastmailWebhook, verifyWebhookSignature]
    rw [if_pos (by rw [hlen s body]; exact fun h => hne h.symm)]

/-- C2 witness: a missing signature header is rejected with 401 and no
engine operation. -/
theorem C2_witness :
    handleFastmailWebhook hmacZero (some "sec") none "b" payload0 = (401, []) :=
  (C2_webhook_auth_amended hmacZero (fun s b => by simp [hmacZero])
    (some "sec") none "b" payload0).1 rfl

/-- C3. The claim states transient failures are retried up to
MAX_RETRIES times with backoff starting at RETRY_DELAY. The
configuration defaults do come out as maxRetries = 3 and
retryDelayMs = 5000, but `performSync` consults neither: on any run
whose first provider call fails (`tokenOk = false` — the result of a
transient network failure inside `validateToken`), the tick surfaces
`Invalid Fastmail access token` after exactly one validate call, with
no retry and no state change, even though a retry would have
succeeded (`provC3` would answer true on a second attempt if one were
ever made). -/
theorem C3_no_retry :
    (loadSyncConfig []).maxRetries = 3 ∧
    (loadSyncConfig []).retryDelayMs = 5000 ∧
    (∀ (hash : String → String) (now : Nat) (bs : Option Nat)
       (prov : Provider) (st : Store),
      prov.tokenOk = false →
      performSync hash now bs prov st =
        { store := st, outcome := .error "Invalid Fastmail access token"
          validateCalls := 1, queries := [], truncated := false }) ∧
    (performSync hashFn0 7 (some 2) provC3 storeC1).validateCalls = 1 ∧
    (performSync hashFn0 7 (some 2) provC3 storeC1).outcome =
      .error "Invalid Fastmail access token" ∧
    (performSync hashFn0 7 (some 2) provC3 storeC1).store = storeC1 := by
  refine ⟨rfl, rfl, ?_, rfl, rfl, rfl⟩
  intro hash now bs prov st h
  simp [performSync, h]

/-- C3 witness: the no-retry equation applied at a concrete failing
tick. -/
theorem C3_witness :
    performSync hashFn0 0 none provC3 storeC1 =
      { store := storeC1, outcome := .error "Invalid Fastmail access token"
        validateCalls := 1, queries := [], truncated := false } :=
  C3_no_retry.2.2.1 hashFn0 0 none provC3 storeC1 rfl

/-- C4 counterexample. Upserting an email that carries the `$deleted`
keyword stores it with is_deleted = true and still creates its Search
Row, and `repair_data_integrity` does not remove Search Rows of
soft-deleted emails — so after the upsert and a repair run a deleted
email has a Search Row, refuting the claimed equivalence between
Search-Row existence and the email being non-deleted. -/
theorem C4_counterexample :
    (c4Out.tbl.rows.any (fun e =>
      e.isDeleted &&
        (repairDataIntegrity hashFn0 c4Out.tbl c4Out.search).any
          (fun s => s.emailId = e.localId))) = true := by
  decide

/-- C4 (amended). The Search Row is recomputed on every email upsert
(whether or not the email is deleted), and after
`repair_data_integrity` runs there are no orphan Search Rows and every
non-deleted Email has a Search Row; a Search Row of a soft-deleted
email, however, is kept, so existence of a Search Row is not
equivalent to the referenced email being non-deleted. -/
theorem C4_search_row_amended (hash : String → String) (now : Nat)
    (tbl : EmailsTable) (search : List SearchRow) (e : StoredEmail) :
    (∃ tbl' search' r, storeEmailOne hash now tbl search e = (tbl', search', some r) ∧
      ∃ s ∈ search', s.emailId = r.localId ∧ s.searchVector = searchContentOf e) ∧
    (∀ s ∈ repairDataIntegrity hash tbl search,
      ∃ e' ∈ tbl.rows, e'.localId = s.emailId) ∧
    (∀ e' ∈ tbl.rows, e'.isDeleted = false →
      ∃ s ∈ repairDataIntegrity hash tbl search, s.emailId = e'.localId) := by
  refine ⟨?_, repairDataIntegrity_no_orphans hash tbl search,
    repairDataIntegrity_coverage hash tbl search⟩
  obtain ⟨tbl', search', r, heq, _, _, hs, _, _⟩ := storeEmailOne_spec hash now tbl search e
  obtain ⟨s, hsmem, hsid, hsv, _⟩ := hs
  exact ⟨tbl', search', r, heq, s, hsmem, hsid, hsv⟩

/-- C4 witness: after repair on a one-row table with a live email the
email has a Search Row. -/
theorem C4_witness :
    (repairDataIntegrity hashFn0 tblW []).any
      (fun s => s.emailId = rowW.localId) = true := by
  obtain ⟨s, hsmem, hsid⟩ :=
    (C4_search_row_amended hashFn0 0 tblW [] emailW).2.2 rowW (by decide) rfl
  exact List.any_eq_true.mpr ⟨s, hsmem, by simp [hsid]⟩

/-- C5. A batch of N emails, K of which duplicate existing rows by the
`fastmail_id` natural key, commits all N writes: the aggregate result
lists exactly N written rows, pairwise carrying the batch's content in
order; every batch key is present in the final table; every
pre-existing row survives under its key and primary key (duplicates
are updates in place, not fresh inserts); and key uniqueness is
preserved, so no batch aborts and no error is produced. -/
theorem C5_batch_upsert_tolerance (hash : String → String) (now : Nat)
    (tbl : EmailsTable) (search : List SearchRow) (batch : List StoredEmail)
    (huniq : UniqKeys tbl.rows) :
    (storeEmailsImpl hash now tbl search batch).results.length = batch.length ∧
    List.Forall₂ (fun r e => rowOfEmail r e)
      (storeEmailsImpl hash now tbl search batch).results batch ∧
    (∀ e ∈ batch, ∃ r ∈ (storeEmailsImpl hash now tbl search batch).tbl.rows,
      r.fastmailId = e.fastmailId) ∧
    (∀ r0 ∈ tbl.rows, ∃ r1 ∈ (storeEmailsImpl hash now tbl search batch).tbl.rows,
      r1.fastmailId = r0.fastmailId ∧ r1.localId = r0.localId) ∧
    UniqKeys (storeEmailsImpl hash now tbl search batch).tbl.rows := by
  obtain ⟨hlen, hfa, hpresent, hpres, hun⟩ :=
    storeEmailsImpl_spec hash now batch tbl search
  exact ⟨hlen, hfa, hpresent, hpres, hun huniq⟩

/-- C5 witness: a batch of two copies of an already-present email
commits two writes. -/
theorem C5_witness :
    (storeEmailsImpl hashFn0 1 tblW [] [emailW, emailW]).results.length = 2 :=
  (C5_batch_upsert_tolerance hashFn0 1 tblW [] [emailW, emailW]
    (List.pairwise_singleton _ _)).1

/-- The store after `handleEmailDeleted`: only the one `emails`-table
update statement runs. -/
def handleEmailDeletedStore (st : Store) (emailId : String) (now : Nat) : Store :=
  { st with emails := { st.emails with
      rows := handleEmailDeletedRows st.emails.rows emailId now } }

/-- C6. Handling a (signature-verified) email.deleted event for `e`
sets is_deleted = true and stamps updated_at on every row keyed by
`e`; rows with any other key are exactly the rows that were there
before; the search, mailbox and sync-state tables are untouched; and
`e` no longer appears in `advanced_email_search` results, whose WHERE
clause starts from is_deleted = false. -/
theorem C6_webhook_delete_frame (st : Store) (emailId : String) (now : Nat)
    (p : EmailRow → Bool) :
    (∀ r ∈ (handleEmailDeletedStore st emailId now).emails.rows,
      r.fastmailId = emailId → r.isDeleted = true ∧ r.updatedAt = now) ∧
    ((handleEmailDeletedStore st emailId now).emails.rows.filter
        (fun r => !(r.fastmailId = emailId)) =
      st.emails.rows.filter (fun r => !(r.fastmailId = emailId))) ∧
    (handleEmailDeletedStore st emailId now).search = st.search ∧
    (handleEmailDeletedStore st emailId now).mailboxes = st.mailboxes ∧
    (handleEmailDeletedStore st emailId now).syncStates = st.syncStates ∧
    (∀ r ∈ advancedEmailSearch (handleEmailDeletedStore st emailId now).emails p,
      r.fastmailId ≠ emailId) := by
  refine ⟨handleEmailDeletedRows_marks _ _ _, handleEmailDeletedRows_frame _ _ _,
    rfl, rfl, rfl, ?_⟩
  intro r hr hk
  have hmem := advancedEmailSearch_sub _ p r hr
  have hnd := advancedEmailSearch_not_deleted _ p r hr
  have hmark := handleEmailDeletedRows_marks st.emails.rows emailId now r hmem hk
  rw [hmark.1] at hnd
  cases hnd

/-- C6 witness: deleting `e2` in the one-row store marks its row. -/
theorem C6_witness :
    ({ rowW with isDeleted := true, updatedAt := 9 } : EmailRow).isDeleted = true ∧
    ({ rowW with isDeleted := true, updatedAt := 9 } : EmailRow).updatedAt = 9 :=
  (C6_webhook_delete_frame storeW "e2" 9 (fun _ => true)).1 _ (by decide) (by decide)

/-- C7. Encrypting a token and decrypting the stored row returns the
original access_token and refresh_token strings unchanged, given the
cipher pair's contract (deciphering inverts enciphering, and a
ciphertext is never the empty string — aes192 output is at least one
block). The composition runs through the `oauth_tokens` row exactly as
`storeToken` and `getStoredToken` do. -/
theorem C7_token_roundtrip (enc dec : String → String)
    (hinv : ∀ s, dec (enc s) = s) (hne : ∀ s, s ≠ "" → enc s ≠ "")
    (accountId : String) (t : OAuthTokenPlain) :
    decryptToken dec (storeTokenRow enc accountId t) = t := by
  unfold decryptToken storeTokenRow
  cases t with
  | mk a r ty sc =>
    by_cases hr : r = ""
    · subst hr
      simp [hinv]
    · simp only
      rw [if_neg hr, if_neg (hne r hr)]
      simp [hinv]

/-- C7 witness: the round trip at the identity cipher on a concrete
token. -/
theorem C7_witness :
    decryptToken (fun s => s) (storeTokenRow (fun s => s) "acct" tok0) = tok0 :=
  C7_token_roundtrip (fun s => s) (fun s => s) (fun _ => rfl) (fun _ h => h) "acct" tok0

/-- C8 counterexample. On the two-batch trace (full batch with
provider state s1, then a short batch), the loop issues its second
query with the original token tok0, not with the state s1 the provider
returned with the first batch — the claim that each subsequent query
is issued since the state advanced by the previous batch is false. -/
theorem C8_counterexample :
    runC8.queries.map (fun q => q.sinceFilter) = [some "tok0", some "tok0"] ∧
    ¬ ((runC8.queries.map (fun q => q.sinceFilter)).get? 1 = some (some "s1")) := by
  decide

/-- C8 (amended). The email-pull loop exits exactly when some provider
response is empty or shorter than the configured batch size (so it
does not terminate on an endless stream of full batches), and every
query of the loop — the first and all subsequent ones — is issued with
the original unchanged last_sync_token and the configured limit. -/
theorem C8_loop_exit_amended (hash : String → String) (now : Nat)
    (tok : Option String) (batchSize : Nat)
    (batches : List (String × List FastmailEmailData)) (tbl : EmailsTable)
    (search : List SearchRow) :
    ((syncEmailsGo hash now tok batchSize batches tbl search).exited = true ↔
      ∃ b ∈ batches, b.2.length = 0 ∨ b.2.length < batchSize) ∧
    (∀ q ∈ (syncEmailsGo hash now tok batchSize batches tbl search).queries,
      q.sinceFilter = tok ∧ q.limit = batchSize) := by
  refine ⟨syncEmailsGo_exited_iff hash now tok batchSize batches tbl search, ?_⟩
  intro q hq
  rw [syncEmailsGo_queries_spec hash now tok batchSize batches tbl search q hq]
  exact ⟨rfl, rfl⟩

/-- C8 witness: the query of a single-short-batch run carries the
original token and limit. -/
theorem C8_witness :
    (emailQueryParams { since := some "tok0", limit := 2, sort := none }).sinceFilter =
        some "tok0" ∧
    (emailQueryParams { since := some "tok0", limit := 2, sort := none }).limit = 2 :=
  (C8_loop_exit_amended hashFn0 0 (some "tok0") 2 [("s2", [d3])] ⟨[], 0⟩ []).2 _ (by decide)

/-- C9. The claim states sync-path email queries carry no sort
parameter. In fact every query the email-pull loop issues carries the
default sort `[{ property: 'date', isAscending: false }]`: the sync
service omits the option (its comment says to avoid an
unsupportedSort error), but `getEmails` destructures
`sort = [{ property: 'date', isAscending: false }]` and always places
it in the `Email/query` arguments. -/
theorem C9_sort_param_sent :
    (emailQueryParams { since := some "tok0", limit := 100, sort := none }).sort =
      defaultEmailSort ∧
    defaultEmailSort ≠ [] ∧
    (∀ (hash : String → String) (now : Nat) (tok : Option String) (bs : Nat)
       (batches : List (String × List FastmailEmailData)) (tbl : EmailsTable)
       (search : List SearchRow),
      ∀ q ∈ (syncEmailsGo hash now tok bs batches tbl search).queries,
        q.sort = defaultEmailSort) := by
  refine ⟨rfl, by decide, ?_⟩
  intro hash now tok bs batches tbl search q hq
  rw [syncEmailsGo_queries_spec hash now tok bs batches tbl search q hq]
  rfl

/-- C9 witness: the concrete first query of a sync run carries the
default date-descending sort. -/
theorem C9_witness :
    (emailQueryParams { since := some "tok0", limit := 2, sort := none }).sort =
      defaultEmailSort :=
  C9_sort_param_sent.2.2 hashFn0 0 (some "tok0") 2 [("s2", [d3])] ⟨[], 0⟩ [] _ (by decide)

/-- C10. Converting a provider email derives the stored booleans from
the keyword flags — is_read from `$seen`, is_flagged from `$flagged`,
is_deleted from `$deleted` (absent keys count as false) — and an
ordinary batch upsert of such an email writes a row whose is_deleted
equals the `$deleted` keyword, with no delete event involved. -/
theorem C10_flags_from_keywords (d : FastmailEmailData) (mb : Option String)
    (hash : String → String) (now : Nat) (tbl : EmailsTable)
    (search : List SearchRow) :
    (StoredEmail.fromFastmailEmail (FastmailEmail.ofData d) mb).isRead =
      lookupFlag d.keywords "$seen" ∧
    (StoredEmail.fromFastmailEmail (FastmailEmail.ofData d) mb).isFlagged =
      lookupFlag d.keywords "$flagged" ∧
    (StoredEmail.fromFastmailEmail (FastmailEmail.ofData d) mb).isDeleted =
      lookupFlag d.keywords "$deleted" ∧
    (∀ r ∈ (storeEmailsImpl hash now tbl search
        [StoredEmail.fromFastmailEmail (FastmailEmail.ofData d) mb]).results,
      r.isDeleted = lookupFlag d.keywords "$deleted") := by
  refine ⟨rfl, rfl, rfl, ?_⟩
  intro r hr
  obtain ⟨-, hfa, -, -, -⟩ := storeEmailsImpl_spec hash now
    [StoredEmail.fromFastmailEmail (FastmailEmail.ofData d) mb] tbl search
  rcases List.forall₂_cons_right_iff.mp hfa with ⟨a, l2, hrow, hnil, heqres⟩
  have hl2 : l2 = [] := by
    cases hnil
    rfl
  rw [heqres, hl2, List.mem_singleton] at hr
  subst hr
  exact hrow.2.2.2.2.2.2.2.2.trans rfl

/-- C10 witness: the row written for the `$deleted`-flagged `d3` is
deleted. -/
theorem C10_witness :
    (mkEmailRow 0 3 (StoredEmail.fromFastmailEmail (FastmailEmail.ofData d3) none)).isDeleted =
      lookupFlag d3.keywords "$deleted" :=
  (C10_flags_from_keywords d3 none hashFn0 3 ⟨[], 0⟩ []).2.2.2 _ (by decide)

end EmailStorage
